import Mathlib

/-!
Verification of `phy/cluster/manual/store.py`: a two-tier (memory + disk)
cluster store, a dispatching `Store`, and the `ClusterStore` registry.

Python dicts are embedded as association lists (`List (α × β)`) whose
operations mirror dict lookup, assignment, `update` and `del`.  Stateful
Python methods become pure functions returning the new state; methods that
can raise return `Except Err`, and `ClusterStore.update` returns the state
together with an optional error, since in Python the mutations performed
before the raise survive it.
-/

set_option linter.unusedVariables false

namespace PhyStore

/-- Python dict lookup `d.get(k)`: value at the first matching key. -/
def dictGet {α β : Type} [DecidableEq α] : List (α × β) → α → Option β
  | [], _ => Option.none
  | kv :: rest, k => if kv.1 = k then some kv.2 else dictGet rest k

/-- Python dict assignment `d[k] = v`: replace the binding in place, else append. -/
def dictInsert {α β : Type} [DecidableEq α] : List (α × β) → α → β → List (α × β)
  | [], k, v => [(k, v)]
  | kv :: rest, k, v => if kv.1 = k then (k, v) :: rest else kv :: dictInsert rest k v

/-- Python `d.update(data)`: assign every binding of `data` into `d`, left to right. -/
def dictUpdate {α β : Type} [DecidableEq α] (d : List (α × β)) (data : List (α × β)) :
    List (α × β) :=
  data.foldl (fun acc kv => dictInsert acc kv.1 kv.2) d

/-- Python `del d[k]` (with nothing to do when `k` is absent). -/
def dictErase {α β : Type} [DecidableEq α] (d : List (α × β)) (k : α) : List (α × β) :=
  d.filter (fun kv => decide (kv.1 ≠ k))

/-- Python `sorted` on a list of ids. -/
def pySorted (l : List Nat) : List Nat :=
  List.insertionSort (· ≤ ·) l

/-- Modelled from the spec: `phy.utils._misc._concatenate_dicts` is not under
`src/`; per the spec the tier result maps are merged with the second
(persistent-tier) map "applied after the volatile map in the merge", so its
values win on key collision. -/
def _concatenate_dicts {α β : Type} [DecidableEq α] (d1 d2 : List (α × β)) :
    List (α × β) :=
  d2.foldl (fun acc kv => dictInsert acc kv.1 kv.2) d1

/-- Modelled from the spec: `phy.utils.array._index_of` is not under `src/`;
per the spec it yields, for each requested member index, its position in the
concatenated membership sequence. -/
def _index_of (arr lookup : List Nat) : List Nat :=
  arr.map (fun s => lookup.indexOf s)

/-- The exceptions the translated code can raise. -/
inductive Err where
  | valueError
  | runtimeError
  | keyError
  | attributeError
  | assertionError
  | notImplementedError
  | typeError
  | indexError
deriving DecidableEq, Repr

/-- The `keys` argument of the `load` methods: `None`, a single string, or a list. -/
inductive Keys where
  | none
  | scalar (k : String)
  | list (ks : List String)
deriving DecidableEq, Repr

/-- Result of a `load`: a dict (absent fields map to Python `None`, i.e. `Option.none`)
or a single optional value. -/
inductive LoadResult (V : Type) where
  | dict (d : List (String × Option V))
  | value (v : Option V)
deriving DecidableEq, Repr

/-! ## MemoryStore (`store.py` lines 26-62) -/

/-- `MemoryStore`: `self._ds` is a dict from cluster id to a field dict. -/
structure MemoryStore (V : Type) where
  ds : List (Nat × List (String × V))
deriving DecidableEq, Repr

/-- `MemoryStore.store`: create the cluster's record if absent, then `update` it. -/
def MemoryStore.store {V : Type} (m : MemoryStore V) (cluster : Nat)
    (data : List (String × V)) : MemoryStore V :=
  ⟨dictInsert m.ds cluster (dictUpdate ((dictGet m.ds cluster).getD []) data)⟩

/-- The dict-shaped part of `MemoryStore.load` (`keys` either `None` or a list). -/
def MemoryStore.loadMap {V : Type} (m : MemoryStore V) (cluster : Nat)
    (keys : Option (List String)) : List (String × Option V) :=
  match keys with
  | Option.none => ((dictGet m.ds cluster).getD []).map (fun kv => (kv.1, some kv.2))
  | some ks => ks.map (fun k => (k, dictGet ((dictGet m.ds cluster).getD []) k))

/-- `MemoryStore.load`: full record for `keys=None`, `.get(k, None)` for a scalar key,
per-key `get` for a list of keys.  Never raises for a missing cluster. -/
def MemoryStore.load {V : Type} (m : MemoryStore V) (cluster : Nat) (keys : Keys) :
    LoadResult V :=
  match keys with
  | Keys.none => LoadResult.dict (m.loadMap cluster Option.none)
  | Keys.scalar k => LoadResult.value (dictGet ((dictGet m.ds cluster).getD []) k)
  | Keys.list ks => LoadResult.dict (m.loadMap cluster (some ks))

/-- `MemoryStore.clusters`: `sorted(self._ds.keys())`. -/
def MemoryStore.clusters {V : Type} (m : MemoryStore V) : List Nat :=
  pySorted (m.ds.map (fun kv => kv.1))

/-- `MemoryStore.delete`: `del` each given cluster that is present. -/
def MemoryStore.delete {V : Type} (m : MemoryStore V) (clusters : List Nat) :
    MemoryStore V :=
  ⟨clusters.foldl (fun ds c => dictErase ds c) m.ds⟩

/-- `MemoryStore.clear`: delete all clusters. -/
def MemoryStore.clear {V : Type} (m : MemoryStore V) : MemoryStore V :=
  m.delete m.clusters

/-! ## DiskStore (`store.py` lines 65-159)

The HDF5 backend is opaque; its observable state is a dict from cluster id to
the cluster file's dict of datasets.  Opening a file in append mode (`store`)
creates it even when no data is written, which matters for tier consistency. -/

/-- `DiskStore`: the directory's cluster files, each a dict of datasets. -/
structure DiskStore (V : Type) where
  files : List (Nat × List (String × V))
deriving DecidableEq, Repr

/-- `DiskStore.store`: open the cluster file in append mode (creating it if absent)
and overwrite each given key. -/
def DiskStore.store {V : Type} (d : DiskStore V) (cluster : Nat)
    (data : List (String × V)) : DiskStore V :=
  ⟨dictInsert d.files cluster (dictUpdate ((dictGet d.files cluster).getD []) data)⟩

/-- The dict-shaped part of `DiskStore.load`: for an absent cluster file, `{}` for
`keys=None` and an all-`None` dict for a list; for a present file, `keys=None`
enumerates the file's datasets and a list is looked up per key. -/
def DiskStore.loadMap {V : Type} (d : DiskStore V) (cluster : Nat)
    (keys : Option (List String)) : List (String × Option V) :=
  match dictGet d.files cluster with
  | Option.none =>
    match keys with
    | Option.none => []
    | some ks => ks.map (fun k => (k, Option.none))
  | some f =>
    match keys with
    | Option.none => f.map (fun kv => (kv.1, some kv.2))
    | some ks => ks.map (fun k => (k, dictGet f k))

/-- `DiskStore.load`: `None` for a scalar key on an absent cluster or dataset,
otherwise the stored value; dict-shaped results via `loadMap`. -/
def DiskStore.load {V : Type} (d : DiskStore V) (cluster : Nat) (keys : Keys) :
    LoadResult V :=
  match keys with
  | Keys.none => LoadResult.dict (d.loadMap cluster Option.none)
  | Keys.scalar k =>
    match dictGet d.files cluster with
    | Option.none => LoadResult.value Option.none
    | some f => LoadResult.value (dictGet f k)
  | Keys.list ks => LoadResult.dict (d.loadMap cluster (some ks))

/-- `DiskStore.clusters`: the sorted ids decoded from the directory's file names. -/
def DiskStore.clusters {V : Type} (d : DiskStore V) : List Nat :=
  pySorted (d.files.map (fun kv => kv.1))

/-- `DiskStore.delete`: remove the cluster file of each given id that exists. -/
def DiskStore.delete {V : Type} (d : DiskStore V) (clusters : List Nat) : DiskStore V :=
  ⟨clusters.foldl (fun fs c => dictErase fs c) d.files⟩

/-- `DiskStore.clear`: delete all clusters. -/
def DiskStore.clear {V : Type} (d : DiskStore V) : DiskStore V :=
  d.delete d.clusters

/-! ## Store (`store.py` lines 166-264) -/

/-- `Store`: a `MemoryStore`, an optional `DiskStore`, and the
`{field -> 'memory' | 'disk'}` dispatch dict. -/
structure Store (V : Type) where
  memory : MemoryStore V
  disk : Option (DiskStore V)
  dispatch : List (String × String)
deriving DecidableEq, Repr

/-- `Store.__init__`: empty memory store, disk store only when a path is given
(the path itself is irrelevant to the model), empty dispatch dict. -/
def Store.init {V : Type} (withDisk : Bool) : Store V :=
  ⟨⟨[]⟩, if withDisk then some ⟨[]⟩ else Option.none, []⟩

/-- `Store._check_location` as a predicate: a location must be 'memory' or 'disk'. -/
def locationValid (location : String) : Bool :=
  location = "memory" || location = "disk"

/-- `Store.register_field`: check the location, then set the dispatch entry. -/
def Store.register_field {V : Type} (s : Store V) (name location : String) :
    Except Err (Store V) :=
  if locationValid location then
    Except.ok { s with dispatch := dictInsert s.dispatch name location }
  else Except.error Err.valueError

/-- `Store._filter`: keep the keys whose dispatch entry is the given location
(`None` passes through unchanged). -/
def Store._filter {V : Type} (s : Store V) (keys : Option (List String))
    (location : String) : Option (List String) :=
  match keys with
  | Option.none => Option.none
  | some ks => some (ks.filter (fun k => decide (dictGet s.dispatch k = some location)))

/-- `Store.clusters` property: the memory tier's clusters when there is no disk
store; otherwise a `RuntimeError` when the two sorted id lists differ. -/
def Store.clusters {V : Type} (s : Store V) : Except Err (List Nat) :=
  let clusters_memory := s.memory.clusters
  match s.disk with
  | Option.none => Except.ok clusters_memory
  | some d =>
    if clusters_memory = d.clusters then Except.ok clusters_memory
    else Except.error Err.runtimeError

/-- The storing part of `Store.store` (after the optional registration step):
split the data by dispatched tier; unregistered fields pass neither filter. -/
def Store.storeData {V : Type} (s : Store V) (cluster : Nat)
    (data : List (String × V)) : Store V :=
  let keys := data.map (fun kv => kv.1)
  let memKeys := (s._filter (some keys) "memory").getD []
  let data_memory := memKeys.filterMap (fun k => (dictGet data k).map (fun v => (k, v)))
  let mem' := s.memory.store cluster data_memory
  match s.disk with
  | Option.none => { s with memory := mem' }
  | some d =>
    let diskKeys := (s._filter (some keys) "disk").getD []
    let data_disk := diskKeys.filterMap (fun k => (dictGet data k).map (fun v => (k, v)))
    { s with memory := mem', disk := some (d.store cluster data_disk) }

/-- `Store.store`: with a valid explicit location, first register every incoming
field there; a `location` that is neither `None` nor valid raises `ValueError`;
then store each tier's filtered portion. -/
def Store.store {V : Type} (s : Store V) (cluster : Nat) (location : Option String)
    (data : List (String × V)) : Except Err (Store V) :=
  match location with
  | some loc =>
    if locationValid loc then
      let s1 : Store V :=
        { s with dispatch :=
            (data.map (fun kv => kv.1)).foldl (fun dp k => dictInsert dp k loc) s.dispatch }
      Except.ok (s1.storeData cluster data)
    else Except.error Err.valueError
  | Option.none => Except.ok (s.storeData cluster data)

/-- `Store.load`: a scalar key is dispatched to its registered tier (`KeyError`
when unregistered, `AttributeError` when dispatched to an absent disk store;
a dispatch entry that is neither tier falls through and returns `None`);
`keys=None` or a list loads each tier's filtered portion and merges the two
dicts, the disk dict second. -/
def Store.load {V : Type} (s : Store V) (cluster : Nat) (keys : Keys) :
    Except Err (LoadResult V) :=
  match keys with
  | Keys.scalar k =>
    match dictGet s.dispatch k with
    | Option.none => Except.error Err.keyError
    | some loc =>
      if loc = "memory" then Except.ok (s.memory.load cluster (Keys.scalar k))
      else if loc = "disk" then
        match s.disk with
        | Option.none => Except.error Err.attributeError
        | some d => Except.ok (d.load cluster (Keys.scalar k))
      else Except.ok (LoadResult.value Option.none)
  | Keys.none =>
    let data_memory := s.memory.loadMap cluster (s._filter Option.none "memory")
    let data_disk :=
      match s.disk with
      | Option.none => []
      | some d => d.loadMap cluster (s._filter Option.none "disk")
    Except.ok (LoadResult.dict (_concatenate_dicts data_memory data_disk))
  | Keys.list ks =>
    let data_memory := s.memory.loadMap cluster (s._filter (some ks) "memory")
    let data_disk :=
      match s.disk with
      | Option.none => []
      | some d => d.loadMap cluster (s._filter (some ks) "disk")
    Except.ok (LoadResult.dict (_concatenate_dicts data_memory data_disk))

/-- `Store.clear`: clear both tiers. -/
def Store.clear {V : Type} (s : Store V) : Store V :=
  { s with memory := s.memory.clear, disk := s.disk.map (fun d => d.clear) }

/-- `Store.delete`: delete the clusters from both tiers. -/
def Store.delete {V : Type} (s : Store V) (clusters : List Nat) : Store V :=
  { s with memory := s.memory.delete clusters,
           disk := s.disk.map (fun d => d.delete clusters) }

/-! ## ClusterStore (`store.py` lines 271-365) and StoreItem (lines 368-410)

A `StoreItem` subclass is modelled by its `fields` declaration and an explicit
`compute` function standing for an overridden `store_from_model` that stores
its computed field dict for the cluster through `self.store.store(cluster,
**data)` (the documented provider contract; the base-class default is
`compute _ _ = []`).  `merge` is the base-class default, which delegates to
`assign`. -/

/-- A registered `StoreItem`: its name, `fields` declaration, and the data its
`store_from_model` writes through the `Store` for a cluster and its spikes. -/
structure StoreItem (V : Type) where
  name : String
  fields : List (String × String)
  compute : Nat → List Nat → List (String × V)

/-- `StoreItem.store_from_model`: store the computed data for the cluster
(a `store` call with no explicit location, which never raises). -/
def StoreItem.store_from_model {V : Type} (item : StoreItem V) (st : Store V)
    (cluster : Nat) (spikes : List Nat) : Store V :=
  st.storeData cluster (item.compute cluster spikes)

/-- The loop of `StoreItem.assign`: `for cluster in up.added:
store_from_model(cluster, up.new_spikes_per_cluster[cluster])`; a missing
entry raises `KeyError`, keeping the mutations already made. -/
def assignLoop {V : Type} (item : StoreItem V)
    (new_spikes_per_cluster : List (Nat × List Nat)) :
    Store V → List Nat → Store V × Option Err
  | st, [] => (st, Option.none)
  | st, c :: rest =>
    match dictGet new_spikes_per_cluster c with
    | Option.none => (st, some Err.keyError)
    | some spikes =>
      assignLoop item new_spikes_per_cluster (item.store_from_model st c spikes) rest

/-- `ClusteringChange` (the `up` argument): description, deleted and added ids,
and the new spikes per added cluster. -/
structure ClusteringChange where
  description : String
  deleted : List Nat
  added : List Nat
  new_spikes_per_cluster : List (Nat × List Nat)
deriving DecidableEq, Repr

/-- `StoreItem.assign` (base-class default): recompute every added cluster. -/
def StoreItem.assign {V : Type} (item : StoreItem V) (st : Store V)
    (up : ClusteringChange) : Store V × Option Err :=
  assignLoop item up.new_spikes_per_cluster st up.added

/-- `StoreItem.merge` (base-class default): just `assign`. -/
def StoreItem.merge {V : Type} (item : StoreItem V) (st : Store V)
    (up : ClusteringChange) : Store V × Option Err :=
  item.assign st up

/-- `ClusterStore`: the spikes-per-cluster dict, the wrapped `Store`, the
accessor names installed so far, and the registered items. -/
structure ClusterStore (V : Type) where
  spikes_per_cluster : List (Nat × List Nat)
  store : Store V
  accessors : List String
  items : List (StoreItem V)

/-- The per-field loop of `ClusterStore.register_item`: register each declared
field's location (raising `ValueError` for a location that is neither
'memory' nor 'disk') and install the accessor name (the `assert not
hasattr(self, name)` guard raising `AssertionError` on a collision). -/
def registerFieldsLoop {V : Type} (cs : ClusterStore V) :
    List (String × String) → Except Err (ClusterStore V)
  | [] => Except.ok cs
  | (name, location) :: rest =>
    if locationValid location then
      match cs.store.register_field name location with
      | Except.error e => Except.error e
      | Except.ok st =>
        if name ∈ cs.accessors then Except.error Err.assertionError
        else
          registerFieldsLoop
            { cs with store := st, accessors := cs.accessors ++ [name] } rest
    else Except.error Err.valueError

/-- `ClusterStore.register_item`: register the item's fields, then append the
item to the registry. -/
def ClusterStore.register_item {V : Type} (cs : ClusterStore V) (item : StoreItem V) :
    Except Err (ClusterStore V) :=
  match registerFieldsLoop cs item.fields with
  | Except.error e => Except.error e
  | Except.ok cs1 => Except.ok { cs1 with items := cs1.items ++ [item] }

/-- `np.concatenate`: raises `ValueError` on an empty list of arrays. -/
def npConcat {A : Type} (ls : List (List A)) : Except Err (List A) :=
  if ls.isEmpty then Except.error Err.valueError else Except.ok ls.flatten

/-- The list comprehension `[self._store.load(cluster, name) for cluster in
clusters]` of `ClusterStore.load`, evaluated left to right; a `None` entry
makes the later `np.concatenate` raise `TypeError`. -/
def loadArraysLoop {A : Type} (st : Store (List A)) (name : String) :
    List Nat → Except Err (List (List A))
  | [] => Except.ok []
  | c :: rest =>
    match st.load c (Keys.scalar name) with
    | Except.error e => Except.error e
    | Except.ok (LoadResult.value (some arr)) =>
      (loadArraysLoop st name rest).map (fun tl => arr :: tl)
    | Except.ok (LoadResult.value Option.none) => Except.error Err.typeError
    | Except.ok (LoadResult.dict _) => Except.error Err.typeError

/-- The list comprehension `[self._spikes_per_cluster[cluster] for cluster in
clusters]`: a missing cluster raises `KeyError`. -/
def membersLoop (spikes_per_cluster : List (Nat × List Nat)) :
    List Nat → Except Err (List (List Nat))
  | [] => Except.ok []
  | c :: rest =>
    match dictGet spikes_per_cluster c with
    | Option.none => Except.error Err.keyError
    | some l => (membersLoop spikes_per_cluster rest).map (fun tl => l :: tl)

/-- `arrays[idx, ...]`: select the rows at the given indices, raising
`IndexError` on an out-of-range index. -/
def indexSelect {A : Type} (arrays : List A) : List Nat → Except Err (List A)
  | [] => Except.ok []
  | i :: rest =>
    match arrays[i]? with
    | some a => (indexSelect arrays rest).map (fun tl => a :: tl)
    | Option.none => Except.error Err.indexError

/-- `ClusterStore.load(name, clusters, spikes)`: assert the clusters are in the
store, concatenate the per-cluster arrays (in the order `clusters` lists them),
concatenate the per-cluster spike indices in the same order, assert every
requested spike occurs there, and select the rows matching the requested
spikes. -/
def ClusterStore.load {A : Type} (cs : ClusterStore (List A)) (name : String)
    (clusters : List Nat) (spikes : List Nat) : Except Err (List A) :=
  match cs.store.clusters with
  | Except.error e => Except.error e
  | Except.ok scs =>
    if ¬ clusters.all (fun c => decide (c ∈ scs)) then Except.error Err.assertionError
    else
      match loadArraysLoop cs.store name clusters with
      | Except.error e => Except.error e
      | Except.ok vals =>
        match npConcat vals with
        | Except.error e => Except.error e
        | Except.ok arrays =>
          match membersLoop cs.spikes_per_cluster clusters with
          | Except.error e => Except.error e
          | Except.ok membs =>
            match npConcat membs with
            | Except.error e => Except.error e
            | Except.ok spike_clusters =>
              if ¬ spikes.all (fun s => decide (s ∈ spike_clusters)) then
                Except.error Err.assertionError
              else indexSelect arrays (_index_of spikes spike_clusters)

/-- The claim's reading of `ClusterStore.load`, stated from the spec's words:
identical to `ClusterStore.load` except that the concatenation runs "across
ids in ascending id order", i.e. over the sorted cluster list. -/
def ClusterStore.loadAscendingSpec {A : Type} (cs : ClusterStore (List A))
    (name : String) (clusters : List Nat) (spikes : List Nat) : Except Err (List A) :=
  cs.load name (pySorted clusters) spikes

/-- The loop of `ClusterStore.assign`: `for item in self._items: item.assign(up)`,
stopping at the first error while keeping the mutations already made. -/
def itemsAssignLoop {V : Type} (up : ClusteringChange) :
    Store V → List (StoreItem V) → Store V × Option Err
  | st, [] => (st, Option.none)
  | st, item :: rest =>
    match item.assign st up with
    | (st', Option.none) => itemsAssignLoop up st' rest
    | (st', some e) => (st', some e)

/-- The loop of `ClusterStore.merge`: `for item in self._items: item.merge(up)`. -/
def itemsMergeLoop {V : Type} (up : ClusteringChange) :
    Store V → List (StoreItem V) → Store V × Option Err
  | st, [] => (st, Option.none)
  | st, item :: rest =>
    match item.merge st up with
    | (st', Option.none) => itemsMergeLoop up st' rest
    | (st', some e) => (st', some e)

/-- `ClusterStore.assign`. -/
def ClusterStore.assign {V : Type} (cs : ClusterStore V) (up : ClusteringChange) :
    ClusterStore V × Option Err :=
  match itemsAssignLoop up cs.store cs.items with
  | (st, e) => ({ cs with store := st }, e)

/-- `ClusterStore.merge`. -/
def ClusterStore.merge {V : Type} (cs : ClusterStore V) (up : ClusteringChange) :
    ClusterStore V × Option Err :=
  match itemsMergeLoop up cs.store cs.items with
  | (st, e) => ({ cs with store := st }, e)

/-- `ClusterStore.update`: delete `up.deleted` from the store first, then
dispatch on `up.description`; any other description raises
`NotImplementedError` with the deletion already applied. -/
def ClusterStore.update {V : Type} (cs : ClusterStore V) (up : ClusteringChange) :
    ClusterStore V × Option Err :=
  let cs1 : ClusterStore V := { cs with store := cs.store.delete up.deleted }
  if up.description = "merge" then cs1.merge up
  else if up.description = "assign" then cs1.assign up
  else (cs1, some Err.notImplementedError)

/-- `ClusterStore.generate`: replace the spikes-per-cluster dict wholesale, then
for every item and every cluster in ascending sorted order invoke
`store_from_model` with that cluster's spikes. -/
def ClusterStore.generate {V : Type} (cs : ClusterStore V)
    (spikes_per_cluster : List (Nat × List Nat)) : ClusterStore V :=
  let clusters := pySorted (spikes_per_cluster.map (fun kv => kv.1))
  { cs with
    spikes_per_cluster := spikes_per_cluster,
    store := cs.items.foldl
      (fun st item =>
        clusters.foldl
          (fun st2 c =>
            item.store_from_model st2 c ((dictGet spikes_per_cluster c).getD []))
          st)
      cs.store }

/-! ## Dictionary lemmas -/

theorem dictGet_dictInsert {α β : Type} [DecidableEq α] (d : List (α × β))
    (k k' : α) (v : β) :
    dictGet (dictInsert d k v) k' = if k = k' then some v else dictGet d k' := by
  induction d with
  | nil => simp [dictInsert, dictGet]
  | cons p rest ih =>
    simp only [dictInsert]
    by_cases hp : p.1 = k
    · subst hp
      simp only [if_pos rfl, dictGet]
      by_cases h : p.1 = k' <;> simp [h]
    · rw [if_neg hp]
      simp only [dictGet]
      by_cases h : p.1 = k'
      · have hkk : ¬ k = k' := fun he => hp (by rw [h, he])
        simp [h, hkk]
      · rw [if_neg h, ih]
        simp [h]

theorem dictGet_eq_none_iff {α β : Type} [DecidableEq α] (d : List (α × β)) (k : α) :
    dictGet d k = Option.none ↔ k ∉ d.map Prod.fst := by
  induction d with
  | nil => simp [dictGet]
  | cons p rest ih =>
    simp only [dictGet, List.map_cons, List.mem_cons]
    by_cases h : p.1 = k
    · simp [h]
    · rw [if_neg h, ih]
      constructor
      · rintro hn (he | hm)
        · exact h he.symm
        · exact hn hm
      · intro hn hm
        exact hn (Or.inr hm)

theorem dictGet_isSome_iff {α β : Type} [DecidableEq α] (d : List (α × β)) (k : α) :
    (dictGet d k).isSome = true ↔ k ∈ d.map Prod.fst := by
  rw [← Decidable.not_iff_not, ← dictGet_eq_none_iff d k]
  cases dictGet d k <;> simp

theorem dictUpdate_cons {α β : Type} [DecidableEq α] (d : List (α × β)) (p : α × β)
    (data : List (α × β)) :
    dictUpdate d (p :: data) = dictUpdate (dictInsert d p.1 p.2) data := rfl

theorem dictGet_dictUpdate_not_mem {α β : Type} [DecidableEq α] (d : List (α × β))
    (data : List (α × β)) (k : α) (h : k ∉ data.map Prod.fst) :
    dictGet (dictUpdate d data) k = dictGet d k := by
  induction data generalizing d with
  | nil => rfl
  | cons p rest ih =>
    simp only [List.map_cons, List.mem_cons, not_or] at h
    rw [dictUpdate_cons, ih _ h.2, dictGet_dictInsert]
    exact if_neg (fun he => h.1 he.symm)

theorem dictGet_dictUpdate_of_mem {α β : Type} [DecidableEq α] (d : List (α × β))
    (data : List (α × β)) (k : α) (v : β) (hmem : k ∈ data.map Prod.fst)
    (hval : ∀ p ∈ data, p.1 = k → p.2 = v) :
    dictGet (dictUpdate d data) k = some v := by
  induction data generalizing d with
  | nil => simp at hmem
  | cons p rest ih =>
    rw [dictUpdate_cons]
    by_cases hk : k ∈ rest.map Prod.fst
    · exact ih _ hk (fun q hq => hval q (List.mem_cons_of_mem _ hq))
    · simp only [List.map_cons, List.mem_cons] at hmem
      rcases hmem with hmem | hmem
      · rw [dictGet_dictUpdate_not_mem _ _ _ hk, dictGet_dictInsert,
          if_pos hmem.symm, hval p (List.mem_cons_self _ _) hmem.symm]
      · exact absurd hmem hk

theorem dictGet_map_some {α β : Type} [DecidableEq α] (d : List (α × β)) (k : α) :
    dictGet (d.map (fun kv => (kv.1, some kv.2))) k = (dictGet d k).map some := by
  induction d with
  | nil => rfl
  | cons p rest ih =>
    by_cases h : p.1 = k <;> simp [dictGet, h, ih]

theorem dictGet_map_const {α β : Type} [DecidableEq α] (ks : List α) (x : β) (k : α) :
    dictGet (ks.map (fun k' => (k', x))) k = if k ∈ ks then some x else Option.none := by
  induction ks with
  | nil => rfl
  | cons a rest ih =>
    simp only [List.map_cons, dictGet]
    by_cases h : a = k
    · simp [List.mem_cons, h]
    · rw [if_neg h, ih]
      by_cases hm : k ∈ rest
      · simp [List.mem_cons, hm]
      · have hna : ¬ k = a := fun he => h he.symm
        simp [List.mem_cons, hm, hna]

theorem dictGet_map_lookup {α β : Type} [DecidableEq α] (ks : List α)
    (f : α → Option β) (k : α) (h : k ∈ ks) :
    dictGet (ks.map (fun k' => (k', f k'))) k = some (f k) := by
  induction ks with
  | nil => simp at h
  | cons a rest ih =>
    by_cases ha : a = k
    · simp [dictGet, ha]
    · simp only [List.mem_cons] at h
      rcases h with h | h
      · exact absurd h.symm ha
      · simp [dictGet, ha, ih h]

theorem dictGet_dictErase {α β : Type} [DecidableEq α] (d : List (α × β)) (k k' : α) :
    dictGet (dictErase d k) k' = if k' = k then Option.none else dictGet d k' := by
  induction d with
  | nil => simp [dictErase, dictGet]
  | cons p rest ih =>
    by_cases hp : p.1 = k
    · have he : dictErase (p :: rest) k = dictErase rest k := by
        simp [dictErase, List.filter_cons, hp]
      rw [he, ih]
      by_cases h : k' = k
      · simp [h]
      · have hpk : ¬ p.1 = k' := fun hx => h (by rw [← hx, hp])
        simp [dictGet, h, hpk]
    · have he : dictErase (p :: rest) k = p :: dictErase rest k := by
        simp [dictErase, List.filter_cons, hp]
      rw [he]
      simp only [dictGet]
      by_cases h : p.1 = k'
      · have hkk : ¬ k' = k := fun hx => hp (by rw [h, hx])
        simp [h, hkk]
      · rw [if_neg h, ih]
        simp [h]

theorem dictGet_eraseFold {α β : Type} [DecidableEq α] (cs : List α)
    (d : List (α × β)) (k : α) :
    dictGet (cs.foldl (fun ds c => dictErase ds c) d) k =
      if k ∈ cs then Option.none else dictGet d k := by
  induction cs generalizing d with
  | nil => simp
  | cons c rest ih =>
    rw [List.foldl_cons, ih, dictGet_dictErase]
    by_cases h : k ∈ rest <;> by_cases hc : k = c <;> simp [List.mem_cons, h, hc]

theorem keys_dictInsert {α β : Type} [DecidableEq α] (d : List (α × β)) (k : α) (v : β)
    (k' : α) : k' ∈ (dictInsert d k v).map Prod.fst ↔ k = k' ∨ k' ∈ d.map Prod.fst := by
  rw [← dictGet_isSome_iff, ← dictGet_isSome_iff, dictGet_dictInsert]
  by_cases h : k = k' <;> simp [h]

theorem nodup_keys_dictInsert {α β : Type} [DecidableEq α] (d : List (α × β))
    (k : α) (v : β) (h : (d.map Prod.fst).Nodup) :
    ((dictInsert d k v).map Prod.fst).Nodup := by
  induction d with
  | nil => simp [dictInsert]
  | cons p rest ih =>
    simp only [List.map_cons, List.nodup_cons] at h
    by_cases hp : p.1 = k
    · simp only [dictInsert, if_pos hp, List.map_cons, List.nodup_cons]
      exact ⟨hp ▸ h.1, h.2⟩
    · simp only [dictInsert, if_neg hp, List.map_cons, List.nodup_cons]
      refine ⟨?_, ih h.2⟩
      intro hc
      rcases (keys_dictInsert rest k v p.1).1 hc with he | he
      · exact hp he.symm
      · exact h.1 he

theorem nodup_keys_dictUpdate {α β : Type} [DecidableEq α] (d : List (α × β))
    (data : List (α × β)) (h : (d.map Prod.fst).Nodup) :
    ((dictUpdate d data).map Prod.fst).Nodup := by
  induction data generalizing d with
  | nil => exact h
  | cons p rest ih => exact ih _ (nodup_keys_dictInsert _ _ _ h)

theorem concat_cons {α β : Type} [DecidableEq α] (d1 : List (α × β)) (p : α × β)
    (d2 : List (α × β)) :
    _concatenate_dicts d1 (p :: d2) = _concatenate_dicts (dictInsert d1 p.1 p.2) d2 := rfl

/-- Values of the merged dict: the second dict wins on key collision (its keys
assumed unique, as all dicts produced by the stores' operations are). -/
theorem dictGet_concat {α β : Type} [DecidableEq α] (d1 d2 : List (α × β)) (k : α)
    (h2 : (d2.map Prod.fst).Nodup) :
    dictGet (_concatenate_dicts d1 d2) k = (dictGet d2 k).or (dictGet d1 k) := by
  induction d2 generalizing d1 with
  | nil => simp [_concatenate_dicts, dictGet, Option.or]
  | cons p rest ih =>
    simp only [List.map_cons, List.nodup_cons] at h2
    rw [concat_cons, ih _ h2.2, dictGet_dictInsert]
    by_cases hk : p.1 = k
    · have hr : dictGet rest k = Option.none := by
        rw [dictGet_eq_none_iff]
        exact fun hc => h2.1 (by rw [hk]; exact hc)
      simp [dictGet, hk, hr, Option.or]
    · simp [dictGet, hk]

theorem keys_concat {α β : Type} [DecidableEq α] (d1 d2 : List (α × β)) (k : α) :
    k ∈ (_concatenate_dicts d1 d2).map Prod.fst ↔
      k ∈ d1.map Prod.fst ∨ k ∈ d2.map Prod.fst := by
  induction d2 generalizing d1 with
  | nil => simp [_concatenate_dicts]
  | cons p rest ih =>
    rw [concat_cons, ih, keys_dictInsert]
    simp only [List.map_cons, List.mem_cons]
    tauto

theorem mem_pySorted (l : List Nat) (a : Nat) : a ∈ pySorted l ↔ a ∈ l :=
  List.mem_insertionSort (· ≤ ·)

theorem pySorted_sorted (l : List Nat) : (pySorted l).Sorted (· ≤ ·) :=
  List.sorted_insertionSort (· ≤ ·) l

theorem pySorted_nodup (l : List Nat) (h : l.Nodup) : (pySorted l).Nodup :=
  (List.perm_insertionSort (· ≤ ·) l).nodup_iff.2 h

/-- Two sorted duplicate-free id lists with the same members are equal. -/
theorem pySorted_ext (l1 l2 : List Nat) (h1 : l1.Nodup) (h2 : l2.Nodup)
    (h : ∀ a, a ∈ l1 ↔ a ∈ l2) : pySorted l1 = pySorted l2 := by
  refine List.eq_of_perm_of_sorted ?_ (pySorted_sorted l1) (pySorted_sorted l2)
  refine (List.perm_ext_iff_of_nodup (pySorted_nodup l1 h1) (pySorted_nodup l2 h2)).2 ?_
  intro a
  rw [mem_pySorted, mem_pySorted]
  exact h a

/-! ## Claim C1: the `entities` (`clusters`) property -/

/-- C1: with no persistent tier, `Store.clusters` returns the volatile tier's
entity list; with a persistent tier it fails with the store-inconsistency
`RuntimeError` exactly when the two tiers' entity-id sets differ, and otherwise
returns that common set (the two tiers' sorted lists coincide); the mismatch is
never silently resolved.  The id-key lists are duplicate-free, as Python dict
keys and directory listings are. -/
theorem claim_C1_entities {V : Type} (s : Store V)
    (hm : (s.memory.ds.map Prod.fst).Nodup)
    (hd : ∀ d : DiskStore V, s.disk = some d → (d.files.map Prod.fst).Nodup) :
    (s.disk = Option.none → s.clusters = Except.ok s.memory.clusters) ∧
    (∀ d : DiskStore V, s.disk = some d →
      ((¬ ∀ c, c ∈ s.memory.ds.map Prod.fst ↔ c ∈ d.files.map Prod.fst) →
        s.clusters = Except.error Err.runtimeError) ∧
      ((∀ c, c ∈ s.memory.ds.map Prod.fst ↔ c ∈ d.files.map Prod.fst) →
        s.clusters = Except.ok s.memory.clusters ∧
          s.memory.clusters = d.clusters)) := by
  constructor
  · intro h
    simp [Store.clusters, h]
  · intro d hdisk
    constructor
    · intro hne
      have hneq : s.memory.clusters ≠ d.clusters := by
        intro he
        apply hne
        intro c
        have hc : c ∈ s.memory.clusters ↔ c ∈ d.clusters := by rw [he]
        simpa [MemoryStore.clusters, DiskStore.clusters, mem_pySorted] using hc
      simp [Store.clusters, hdisk, MemoryStore.clusters, DiskStore.clusters] at *
      simp [hneq]
    · intro hsame
      have heq : s.memory.clusters = d.clusters :=
        pySorted_ext _ _ hm (hd d hdisk) hsame
      constructor
      · simp [Store.clusters, hdisk, heq]
      · exact heq

/-- Witness for C1 at a concrete mismatched pair of tiers. -/
theorem claim_C1_entities_witness :
    (Store.clusters (V := Nat) ⟨⟨[(1, [])]⟩, some ⟨[(2, [])]⟩, []⟩ =
      Except.error Err.runtimeError) ∧
    (Store.clusters (V := Nat) ⟨⟨[(1, [])]⟩, some ⟨[(1, [])]⟩, []⟩ =
      Except.ok [1]) := by
  have h1 := claim_C1_entities (V := Nat) ⟨⟨[(1, [])]⟩, some ⟨[(2, [])]⟩, []⟩
    (by simp) (by intro d hd; cases hd; simp)
  have h2 := claim_C1_entities (V := Nat) ⟨⟨[(1, [])]⟩, some ⟨[(1, [])]⟩, []⟩
    (by simp) (by intro d hd; cases hd; simp)
  refine ⟨(h1.2 _ rfl).1 ?_, ((h2.2 _ rfl).2 ?_).1⟩
  · intro hc
    have := (hc 1).1 (by simp)
    simp at this
  · intro c
    exact Iff.rfl

/-! ## Claim C5 and C9: `ClusterStore.update` -/

/-- C5: `update` first deletes `change.deleted` from the dispatcher, then
dispatches to `merge` or `assign` according to `change.description`; any other
description fails with the unsupported-change error (`NotImplementedError`). -/
theorem claim_C5_update_dispatch {V : Type} (cs : ClusterStore V)
    (up : ClusteringChange) :
    (up.description = "merge" →
      cs.update up = ClusterStore.merge { cs with store := cs.store.delete up.deleted } up) ∧
    (up.description = "assign" →
      cs.update up = ClusterStore.assign { cs with store := cs.store.delete up.deleted } up) ∧
    (up.description ≠ "merge" → up.description ≠ "assign" →
      cs.update up =
        ({ cs with store := cs.store.delete up.deleted }, some Err.notImplementedError)) := by
  refine ⟨fun h => ?_, fun h => ?_, fun h1 h2 => ?_⟩
  · simp [ClusterStore.update, h]
  · simp [ClusterStore.update, h]
  · unfold ClusterStore.update
    rw [if_neg h1, if_neg h2]

/-- Witness for C5 at a concrete unsupported description. -/
theorem claim_C5_update_dispatch_witness :
    ClusterStore.update (V := Nat) ⟨[], ⟨⟨[(1, [])]⟩, Option.none, []⟩, [], []⟩
        ⟨"split", [1], [], []⟩ =
      (⟨[], ⟨⟨[]⟩, Option.none, []⟩, [], []⟩, some Err.notImplementedError) := by
  have h := (claim_C5_update_dispatch (V := Nat)
    ⟨[], ⟨⟨[(1, [])]⟩, Option.none, []⟩, [], []⟩ ⟨"split", [1], [], []⟩).2.2
    (by decide) (by decide)
  rw [h]
  rfl

/-- C9 (implicit): `update` is not atomic on error — an unsupported description
raises only after the deleted entities have already been removed from both
tiers, so the store state is mutated despite the failure. -/
theorem claim_C9_update_not_atomic {V : Type} (cs : ClusterStore V)
    (up : ClusteringChange) (c : Nat)
    (h1 : up.description ≠ "merge") (h2 : up.description ≠ "assign")
    (hc : c ∈ up.deleted) :
    (cs.update up).2 = some Err.notImplementedError ∧
    c ∉ (cs.update up).1.store.memory.clusters ∧
    (∀ d : DiskStore V, (cs.update up).1.store.disk = some d → c ∉ d.clusters) := by
  have hupd : cs.update up =
      ({ cs with store := cs.store.delete up.deleted }, some Err.notImplementedError) := by
    simp [ClusterStore.update, h1, h2]
  rw [hupd]
  refine ⟨rfl, ?_, ?_⟩
  · intro hmem
    rw [MemoryStore.clusters, mem_pySorted, ← dictGet_isSome_iff] at hmem
    rw [show (Store.delete cs.store up.deleted).memory = cs.store.memory.delete up.deleted
        from rfl] at hmem
    rw [show (cs.store.memory.delete up.deleted).ds =
        up.deleted.foldl (fun ds c => dictErase ds c) cs.store.memory.ds from rfl] at hmem
    rw [dictGet_eraseFold, if_pos hc] at hmem
    simp at hmem
  · intro d hd hmem
    rw [show (Store.delete cs.store up.deleted).disk =
        cs.store.disk.map (fun d0 => d0.delete up.deleted) from rfl] at hd
    rcases hd0 : cs.store.disk with _ | d0
    · rw [hd0] at hd
      simp at hd
    · rw [hd0] at hd
      have hd2 : some (d0.delete up.deleted) = some d := hd
      cases hd2
      rw [DiskStore.clusters, mem_pySorted, ← dictGet_isSome_iff] at hmem
      rw [show (d0.delete up.deleted).files =
          up.deleted.foldl (fun fs c => dictErase fs c) d0.files from rfl] at hmem
      rw [dictGet_eraseFold, if_pos hc] at hmem
      simp at hmem

/-- Witness for C9: deleting cluster 1 survives the failed update. -/
theorem claim_C9_update_not_atomic_witness :
    (ClusterStore.update (V := Nat)
        ⟨[], ⟨⟨[(1, [("a", 5)])]⟩, some ⟨[(1, [])]⟩, [("a", "memory")]⟩, [], []⟩
        ⟨"split", [1], [], []⟩).2 = some Err.notImplementedError ∧
    1 ∉ (ClusterStore.update (V := Nat)
        ⟨[], ⟨⟨[(1, [("a", 5)])]⟩, some ⟨[(1, [])]⟩, [("a", "memory")]⟩, [], []⟩
        ⟨"split", [1], [], []⟩).1.store.memory.clusters := by
  have h := claim_C9_update_not_atomic (V := Nat)
    ⟨[], ⟨⟨[(1, [("a", 5)])]⟩, some ⟨[(1, [])]⟩, [("a", "memory")]⟩, [], []⟩
    ⟨"split", [1], [], []⟩ 1 (by decide) (by decide) (by decide)
  exact ⟨h.1, h.2.1⟩

/-! ## Claim C10: scalar load of a disk-routed field without a disk store -/

/-- C10 (implicit): on a `Store` built without a persistent-tier path, a scalar
load of a field routed to 'disk' does not degrade to `None` or an empty result:
it fails (the `AttributeError` of calling `load` on the absent disk store),
even though the list and `None` key forms on the same store degrade gracefully
to the volatile portion. -/
theorem claim_C10_scalar_disk_crash {V : Type} (s : Store V) (cluster : Nat)
    (k : String) (hdisk : s.disk = Option.none)
    (hroute : dictGet s.dispatch k = some "disk") :
    s.load cluster (Keys.scalar k) = Except.error Err.attributeError ∧
    s.load cluster (Keys.list [k]) = Except.ok (LoadResult.dict []) ∧
    s.load cluster Keys.none =
      Except.ok (LoadResult.dict (s.memory.loadMap cluster Option.none)) := by
  refine ⟨?_, ?_, ?_⟩
  · simp [Store.load, hroute, hdisk]
  · have hfilter : [k].filter (fun k' => decide (dictGet s.dispatch k' = some "memory")) = [] := by
      simp [List.filter, hroute]
    simp [Store.load, hdisk, Store._filter, hfilter, MemoryStore.loadMap, _concatenate_dicts]
  · simp [Store.load, hdisk, Store._filter, _concatenate_dicts]

/-- Witness for C10 at a concrete store. -/
theorem claim_C10_scalar_disk_crash_witness :
    Store.load (V := Nat) ⟨⟨[(5, [("a", 1)])]⟩, Option.none, [("a", "memory"), ("b", "disk")]⟩
        5 (Keys.scalar "b") = Except.error Err.attributeError ∧
    Store.load (V := Nat) ⟨⟨[(5, [("a", 1)])]⟩, Option.none, [("a", "memory"), ("b", "disk")]⟩
        5 (Keys.list ["b"]) = Except.ok (LoadResult.dict []) := by
  have h := claim_C10_scalar_disk_crash (V := Nat)
    ⟨⟨[(5, [("a", 1)])]⟩, Option.none, [("a", "memory"), ("b", "disk")]⟩ 5 "b"
    rfl (by simp [dictGet])
  exact ⟨h.1, h.2.1⟩

/-! ## Lemmas about the per-tier dicts built by `Store.storeData` -/

theorem dictGet_filterMap_get {α β : Type} [DecidableEq α] (ks : List α)
    (data : List (α × β)) (k : α) :
    dictGet (ks.filterMap (fun k' => (dictGet data k').map (fun v => (k', v)))) k =
      if k ∈ ks then dictGet data k else Option.none := by
  induction ks with
  | nil => rfl
  | cons a rest ih =>
    rcases hga : dictGet data a with _ | v
    · have hstep : (a :: rest).filterMap (fun k' => (dictGet data k').map (fun v => (k', v))) =
          rest.filterMap (fun k' => (dictGet data k').map (fun v => (k', v))) := by
        rw [List.filterMap_cons, hga]
        rfl
      rw [hstep, ih]
      by_cases hak : a = k
      · subst hak
        by_cases hm : a ∈ rest <;> simp [hm, hga]
      · have hne : ¬ k = a := fun he => hak he.symm
        by_cases hm : k ∈ rest <;> simp [List.mem_cons, hm, hne]
    · have hstep : (a :: rest).filterMap (fun k' => (dictGet data k').map (fun v => (k', v))) =
          (a, v) :: rest.filterMap (fun k' => (dictGet data k').map (fun v => (k', v))) := by
        rw [List.filterMap_cons, hga]
        rfl
      rw [hstep]
      simp only [dictGet]
      by_cases hak : a = k
      · subst hak
        simp [hga]
      · rw [if_neg hak, ih]
        have hne : ¬ k = a := fun he => hak he.symm
        by_cases hm : k ∈ rest <;> simp [List.mem_cons, hm, hne]

theorem mem_keys_filterMap_get {α β : Type} [DecidableEq α] (ks : List α)
    (data : List (α × β)) (k : α) :
    k ∈ (ks.filterMap (fun k' => (dictGet data k').map (fun v => (k', v)))).map Prod.fst ↔
      k ∈ ks ∧ (dictGet data k).isSome = true := by
  rw [← dictGet_isSome_iff, dictGet_filterMap_get]
  by_cases hm : k ∈ ks <;> simp [hm]

theorem val_filterMap_get {α β : Type} [DecidableEq α] (ks : List α)
    (data : List (α × β)) :
    ∀ p ∈ ks.filterMap (fun k' => (dictGet data k').map (fun v => (k', v))),
      dictGet data p.1 = some p.2 := by
  intro p hp
  rw [List.mem_filterMap] at hp
  obtain ⟨a, ha, hv⟩ := hp
  rcases hga : dictGet data a with _ | v
  · rw [hga] at hv
    simp at hv
  · rw [hga] at hv
    have hv2 : some (a, v) = some p := hv
    cases Option.some.inj hv2
    simpa using hga

theorem storeData_dispatch {V : Type} (s : Store V) (c : Nat)
    (data : List (String × V)) : (s.storeData c data).dispatch = s.dispatch := by
  rcases h : s.disk with _ | d <;> simp [Store.storeData, h]

theorem storeData_disk_none {V : Type} (s : Store V) (c : Nat)
    (data : List (String × V)) (h : s.disk = Option.none) :
    (s.storeData c data).disk = Option.none := by
  simp [Store.storeData, h]

theorem storeData_memory {V : Type} (s : Store V) (c : Nat)
    (data : List (String × V)) :
    (s.storeData c data).memory =
      s.memory.store c
        (((data.map Prod.fst).filter
            (fun k => decide (dictGet s.dispatch k = some "memory"))).filterMap
          (fun k => (dictGet data k).map (fun v => (k, v)))) := by
  rcases h : s.disk with _ | d <;> simp [Store.storeData, Store._filter, h]

theorem storeData_disk_some {V : Type} (s : Store V) (c : Nat)
    (data : List (String × V)) (d : DiskStore V) (h : s.disk = some d) :
    (s.storeData c data).disk =
      some (d.store c
        (((data.map Prod.fst).filter
            (fun k => decide (dictGet s.dispatch k = some "disk"))).filterMap
          (fun k => (dictGet data k).map (fun v => (k, v))))) := by
  simp [Store.storeData, Store._filter, h]

theorem memoryStore_record {V : Type} (m : MemoryStore V) (c : Nat)
    (data : List (String × V)) :
    dictGet (m.store c data).ds c =
      some (dictUpdate ((dictGet m.ds c).getD []) data) := by
  simp [MemoryStore.store, dictGet_dictInsert]

theorem diskStore_record {V : Type} (d : DiskStore V) (c : Nat)
    (data : List (String × V)) :
    dictGet (d.store c data).files c =
      some (dictUpdate ((dictGet d.files c).getD []) data) := by
  simp [DiskStore.store, dictGet_dictInsert]

/-- After `storeData`, the memory record of the cluster holds the stored value
for a field routed to 'memory' that the data carries, and is untouched at every
other key. -/
theorem storeData_memory_record_get {V : Type} (s : Store V) (c : Nat)
    (data : List (String × V)) (k : String) :
    dictGet ((dictGet (s.storeData c data).memory.ds c).getD []) k =
      if dictGet s.dispatch k = some "memory" ∧ (dictGet data k).isSome = true
      then dictGet data k
      else dictGet ((dictGet s.memory.ds c).getD []) k := by
  rw [storeData_memory, memoryStore_record]
  simp only [Option.getD_some]
  by_cases hcond : dictGet s.dispatch k = some "memory" ∧ (dictGet data k).isSome = true
  · obtain ⟨v, hv⟩ := Option.isSome_iff_exists.1 hcond.2
    rw [if_pos hcond, hv]
    apply dictGet_dictUpdate_of_mem
    · rw [mem_keys_filterMap_get]
      refine ⟨?_, hcond.2⟩
      rw [List.mem_filter]
      refine ⟨?_, by simp [hcond.1]⟩
      rw [← dictGet_isSome_iff]
      exact hcond.2
    · intro p hp hpk
      have hval := val_filterMap_get _ data p hp
      rw [hpk, hv] at hval
      exact (Option.some.inj hval).symm
  · rw [if_neg hcond]
    apply dictGet_dictUpdate_not_mem
    rw [mem_keys_filterMap_get]
    rintro ⟨hks, hsome⟩
    apply hcond
    rw [List.mem_filter] at hks
    exact ⟨of_decide_eq_true hks.2, hsome⟩

/-- After `storeData`, the disk container of the cluster holds the stored value
for a field routed to 'disk' that the data carries, and is untouched at every
other key. -/
theorem storeData_disk_record_get {V : Type} (s : Store V) (c : Nat)
    (data : List (String × V)) (k : String) (d : DiskStore V) (h : s.disk = some d) :
    ∃ d', (s.storeData c data).disk = some d' ∧
      dictGet ((dictGet d'.files c).getD []) k =
        if dictGet s.dispatch k = some "disk" ∧ (dictGet data k).isSome = true
        then dictGet data k
        else dictGet ((dictGet d.files c).getD []) k := by
  refine ⟨_, storeData_disk_some s c data d h, ?_⟩
  rw [diskStore_record]
  simp only [Option.getD_some]
  by_cases hcond : dictGet s.dispatch k = some "disk" ∧ (dictGet data k).isSome = true
  · obtain ⟨v, hv⟩ := Option.isSome_iff_exists.1 hcond.2
    rw [if_pos hcond, hv]
    apply dictGet_dictUpdate_of_mem
    · rw [mem_keys_filterMap_get]
      refine ⟨?_, hcond.2⟩
      rw [List.mem_filter]
      refine ⟨?_, by simp [hcond.1]⟩
      rw [← dictGet_isSome_iff]
      exact hcond.2
    · intro p hp hpk
      have hval := val_filterMap_get _ data p hp
      rw [hpk, hv] at hval
      exact (Option.some.inj hval).symm
  · rw [if_neg hcond]
    apply dictGet_dictUpdate_not_mem
    rw [mem_keys_filterMap_get]
    rintro ⟨hks, hsome⟩
    apply hcond
    rw [List.mem_filter] at hks
    exact ⟨of_decide_eq_true hks.2, hsome⟩

/-! ## Claim C4: unregistered fields are silently dropped by `store` -/

/-- C4: `store(id, location=None, **fields)` with unregistered field names never
raises; the unregistered fields are stored to neither tier (both tiers'
records are unchanged at those keys), while registered fields are forwarded to
their routed tier. -/
theorem claim_C4_unregistered_dropped {V : Type} (s : Store V) (cluster : Nat)
    (data : List (String × V)) :
    (Store.store s cluster Option.none data = Except.ok (s.storeData cluster data)) ∧
    (∀ k, dictGet s.dispatch k = Option.none →
      dictGet ((dictGet (s.storeData cluster data).memory.ds cluster).getD []) k =
        dictGet ((dictGet s.memory.ds cluster).getD []) k ∧
      ∀ d : DiskStore V, s.disk = some d →
        ∃ d', (s.storeData cluster data).disk = some d' ∧
          dictGet ((dictGet d'.files cluster).getD []) k =
            dictGet ((dictGet d.files cluster).getD []) k) ∧
    (∀ k v, dictGet s.dispatch k = some "memory" → dictGet data k = some v →
      dictGet ((dictGet (s.storeData cluster data).memory.ds cluster).getD []) k =
        some v) ∧
    (∀ k v (d : DiskStore V), dictGet s.dispatch k = some "disk" → s.disk = some d →
      dictGet data k = some v →
      ∃ d', (s.storeData cluster data).disk = some d' ∧
        dictGet ((dictGet d'.files cluster).getD []) k = some v) := by
  refine ⟨rfl, ?_, ?_, ?_⟩
  · intro k hk
    constructor
    · rw [storeData_memory_record_get]
      rw [if_neg (by rintro ⟨h1, _⟩; rw [hk] at h1; exact Option.noConfusion h1)]
    · intro d hd
      obtain ⟨d', hd', hget⟩ := storeData_disk_record_get s cluster data k d hd
      refine ⟨d', hd', ?_⟩
      rw [hget, if_neg (by rintro ⟨h1, _⟩; rw [hk] at h1; exact Option.noConfusion h1)]
  · intro k v hdisp hdata
    rw [storeData_memory_record_get,
      if_pos ⟨hdisp, by rw [hdata]; rfl⟩, hdata]
  · intro k v d hdisp hd hdata
    obtain ⟨d', hd', hget⟩ := storeData_disk_record_get s cluster data k d hd
    refine ⟨d', hd', ?_⟩
    rw [hget, if_pos ⟨hdisp, by rw [hdata]; rfl⟩, hdata]

/-- Witness for C4: the unregistered field `"x"` is dropped, the registered
field `"m"` is stored. -/
theorem claim_C4_unregistered_dropped_witness :
    (Store.store (V := Nat) ⟨⟨[]⟩, Option.none, [("m", "memory")]⟩ 3
        Option.none [("m", 10), ("x", 30)] =
      Except.ok (Store.storeData ⟨⟨[]⟩, Option.none, [("m", "memory")]⟩ 3
        [("m", 10), ("x", 30)])) ∧
    dictGet ((dictGet (Store.storeData (V := Nat) ⟨⟨[]⟩, Option.none, [("m", "memory")]⟩ 3
        [("m", 10), ("x", 30)]).memory.ds 3).getD []) "x" = Option.none ∧
    dictGet ((dictGet (Store.storeData (V := Nat) ⟨⟨[]⟩, Option.none, [("m", "memory")]⟩ 3
        [("m", 10), ("x", 30)]).memory.ds 3).getD []) "m" = some 10 := by
  have h := claim_C4_unregistered_dropped (V := Nat)
    ⟨⟨[]⟩, Option.none, [("m", "memory")]⟩ 3 [("m", 10), ("x", 30)]
  refine ⟨h.1, ?_, ?_⟩
  · have hx := (h.2.1 "x" (by simp [dictGet])).1
    rw [hx]
    rfl
  · exact h.2.2.1 "m" 10 (by simp [dictGet]) (by simp [dictGet])

/-! ## Claim C7: loading an entity absent from both tiers -/

/-- C7: for an entity id absent from both tiers, `load` never raises:
`keys=None` yields the empty map, a scalar key yields `None`, and a list of
keys yields an all-`None` map — for each tier independently and for the
combined dispatcher.  The dispatcher's scalar and list keys are assumed
registered and routed to a present tier: an unregistered key is the separate
`UnregisteredField` structural error of the spec's error taxonomy, not a
missing-entity case. -/
theorem claim_C7_absent_entity {V : Type} (s : Store V) (cluster : Nat)
    (hmem : dictGet s.memory.ds cluster = Option.none)
    (hdisk : ∀ d : DiskStore V, s.disk = some d →
      dictGet d.files cluster = Option.none) :
    (s.memory.load cluster Keys.none = LoadResult.dict [] ∧
     (∀ k, s.memory.load cluster (Keys.scalar k) = LoadResult.value Option.none) ∧
     (∀ ks, s.memory.load cluster (Keys.list ks) =
        LoadResult.dict (ks.map (fun k => (k, Option.none))))) ∧
    (∀ d : DiskStore V, s.disk = some d →
      d.load cluster Keys.none = LoadResult.dict [] ∧
      (∀ k, d.load cluster (Keys.scalar k) = LoadResult.value Option.none) ∧
      (∀ ks, d.load cluster (Keys.list ks) =
        LoadResult.dict (ks.map (fun k => (k, Option.none))))) ∧
    ((s.load cluster Keys.none = Except.ok (LoadResult.dict [])) ∧
     (∀ k, dictGet s.dispatch k = some "memory" →
        s.load cluster (Keys.scalar k) = Except.ok (LoadResult.value Option.none)) ∧
     (∀ k (d : DiskStore V), dictGet s.dispatch k = some "disk" → s.disk = some d →
        s.load cluster (Keys.scalar k) = Except.ok (LoadResult.value Option.none)) ∧
     (∀ ks : List String, ks.Nodup →
        (∀ k ∈ ks, dictGet s.dispatch k = some "memory" ∨
          (dictGet s.dispatch k = some "disk" ∧ s.disk.isSome = true)) →
        ∃ out, s.load cluster (Keys.list ks) = Except.ok (LoadResult.dict out) ∧
          ∀ k ∈ ks, dictGet out k = some Option.none)) := by
  refine ⟨⟨?_, ?_, ?_⟩, ?_, ?_, ?_, ?_, ?_⟩
  · simp [MemoryStore.load, MemoryStore.loadMap, hmem]
  · intro k
    simp [MemoryStore.load, hmem, dictGet]
  · intro ks
    simp [MemoryStore.load, MemoryStore.loadMap, hmem, dictGet]
  · intro d hd
    refine ⟨?_, ?_, ?_⟩
    · simp [DiskStore.load, DiskStore.loadMap, hdisk d hd]
    · intro k
      simp [DiskStore.load, hdisk d hd]
    · intro ks
      simp [DiskStore.load, DiskStore.loadMap, hdisk d hd]
  · rcases hd : s.disk with _ | d
    · simp [Store.load, hd, Store._filter, MemoryStore.loadMap, hmem, _concatenate_dicts]
    · simp [Store.load, hd, Store._filter, MemoryStore.loadMap, DiskStore.loadMap,
        hmem, hdisk d hd, _concatenate_dicts]
  · intro k hk
    simp [Store.load, hk, MemoryStore.load, hmem, dictGet]
  · intro k d hk hd
    simp [Store.load, hk, hd, DiskStore.load, hdisk d hd]
  · intro ks hnd hroutes
    rcases hd : s.disk with _ | d
    · refine ⟨(ks.filter (fun k => decide (dictGet s.dispatch k = some "memory"))).map
        (fun k => (k, Option.none)), ?_, ?_⟩
      · simp [Store.load, hd, Store._filter, MemoryStore.loadMap, hmem, dictGet,
          _concatenate_dicts]
      · intro k hkmem
        rw [dictGet_map_const, if_pos]
        rcases hroutes k hkmem with hr | hr
        · rw [List.mem_filter]
          exact ⟨hkmem, by simp [hr]⟩
        · rw [hd] at hr
          simp at hr
    · have hmm : s.memory.loadMap cluster (s._filter (some ks) "memory") =
          (ks.filter (fun k => decide (dictGet s.dispatch k = some "memory"))).map
            (fun k => (k, Option.none)) := by
        simp [MemoryStore.loadMap, Store._filter, hmem, dictGet]
      have hdm : d.loadMap cluster (s._filter (some ks) "disk") =
          (ks.filter (fun k => decide (dictGet s.dispatch k = some "disk"))).map
            (fun k => (k, Option.none)) := by
        simp [DiskStore.loadMap, Store._filter, hdisk d hd]
      refine ⟨_concatenate_dicts
          (s.memory.loadMap cluster (s._filter (some ks) "memory"))
          (d.loadMap cluster (s._filter (some ks) "disk")),
        by simp [Store.load, hd], ?_⟩
      intro k hkmem
      have hndd : (((ks.filter
          (fun k => decide (dictGet s.dispatch k = some "disk"))).map
            (fun k => (k, Option.none (α := V)))).map Prod.fst).Nodup := by
        have hkeys : ((ks.filter
            (fun k => decide (dictGet s.dispatch k = some "disk"))).map
              (fun k => (k, Option.none (α := V)))).map Prod.fst =
            ks.filter (fun k => decide (dictGet s.dispatch k = some "disk")) := by
          simp [Function.comp_def]
        rw [hkeys]
        exact hnd.filter _
      rw [hmm, hdm, dictGet_concat _ _ _ hndd, dictGet_map_const, dictGet_map_const]
      rcases hroutes k hkmem with hr | hr
      · have hnotdisk : k ∉ ks.filter (fun k => decide (dictGet s.dispatch k = some "disk")) := by
          rw [List.mem_filter]
          rintro ⟨_, hc⟩
          rw [hr] at hc
          simp at hc
        have hinmem : k ∈ ks.filter (fun k => decide (dictGet s.dispatch k = some "memory")) := by
          rw [List.mem_filter]
          exact ⟨hkmem, by simp [hr]⟩
        simp [hnotdisk, hinmem, Option.or]
      · have hindisk : k ∈ ks.filter (fun k => decide (dictGet s.dispatch k = some "disk")) := by
          rw [List.mem_filter]
          exact ⟨hkmem, by simp [hr.1]⟩
        simp [hindisk, Option.or]

/-- Witness for C7 at a concrete store with both tiers and entity 5 absent. -/
theorem claim_C7_absent_entity_witness :
    (Store.load (V := Nat) ⟨⟨[]⟩, some ⟨[]⟩, [("a", "memory"), ("b", "disk")]⟩ 5
        Keys.none = Except.ok (LoadResult.dict [])) ∧
    (Store.load (V := Nat) ⟨⟨[]⟩, some ⟨[]⟩, [("a", "memory"), ("b", "disk")]⟩ 5
        (Keys.scalar "a") = Except.ok (LoadResult.value Option.none)) ∧
    (Store.load (V := Nat) ⟨⟨[]⟩, some ⟨[]⟩, [("a", "memory"), ("b", "disk")]⟩ 5
        (Keys.scalar "b") = Except.ok (LoadResult.value Option.none)) := by
  have h := claim_C7_absent_entity (V := Nat)
    ⟨⟨[]⟩, some ⟨[]⟩, [("a", "memory"), ("b", "disk")]⟩ 5 rfl
    (by intro d hd; cases hd; rfl)
  exact ⟨h.2.2.1, h.2.2.2.1 "a" (by simp [dictGet]),
    h.2.2.2.2.1 "b" ⟨[]⟩ (by simp [dictGet]) rfl⟩

/-! ## Claim C8: the two-tier merge of `load` -/

/-- C8: with a persistent tier, `load` with `keys=None` or a list loads each
tier's registered subset from both tiers and merges the two result maps, the
persistent tier's value winning whenever a key appears in both (it is applied
after the volatile map); with no persistent tier the persistent portion
contributes the empty map, so the result is exactly the volatile portion. -/
theorem claim_C8_merge_disk_wins {V : Type} (s : Store V) (cluster : Nat) :
    (∀ d : DiskStore V, s.disk = some d →
      (s.load cluster Keys.none =
        Except.ok (LoadResult.dict (_concatenate_dicts
          (s.memory.loadMap cluster Option.none)
          (d.loadMap cluster Option.none))) ∧
       (((d.loadMap cluster Option.none).map Prod.fst).Nodup →
        ∀ k, dictGet (_concatenate_dicts (s.memory.loadMap cluster Option.none)
            (d.loadMap cluster Option.none)) k =
          (dictGet (d.loadMap cluster Option.none) k).or
            (dictGet (s.memory.loadMap cluster Option.none) k))) ∧
      (∀ ks : List String,
        (s.load cluster (Keys.list ks) =
          Except.ok (LoadResult.dict (_concatenate_dicts
            (s.memory.loadMap cluster (s._filter (some ks) "memory"))
            (d.loadMap cluster (s._filter (some ks) "disk"))))) ∧
        (((d.loadMap cluster (s._filter (some ks) "disk")).map Prod.fst).Nodup →
         ∀ k, dictGet (_concatenate_dicts
             (s.memory.loadMap cluster (s._filter (some ks) "memory"))
             (d.loadMap cluster (s._filter (some ks) "disk"))) k =
           (dictGet (d.loadMap cluster (s._filter (some ks) "disk")) k).or
             (dictGet (s.memory.loadMap cluster (s._filter (some ks) "memory")) k)))) ∧
    (s.disk = Option.none →
      (s.load cluster Keys.none =
        Except.ok (LoadResult.dict (s.memory.loadMap cluster Option.none))) ∧
      (∀ ks : List String, s.load cluster (Keys.list ks) =
        Except.ok (LoadResult.dict
          (s.memory.loadMap cluster (s._filter (some ks) "memory"))))) := by
  constructor
  · intro d hd
    refine ⟨⟨by simp [Store.load, hd, Store._filter],
      fun hnd k => dictGet_concat _ _ _ hnd⟩, ?_⟩
    intro ks
    exact ⟨by simp [Store.load, hd], fun hnd k => dictGet_concat _ _ _ hnd⟩
  · intro hd
    constructor
    · simp [Store.load, hd, Store._filter, _concatenate_dicts]
    · intro ks
      simp [Store.load, hd, _concatenate_dicts]

/-- Witness for C8: a dual-registered key collides and the disk value wins. -/
theorem claim_C8_merge_disk_wins_witness :
    Store.load (V := Nat)
        ⟨⟨[(5, [("a", 1)])]⟩, some ⟨[(5, [("a", 2)])]⟩, [("a", "disk")]⟩ 5 Keys.none =
      Except.ok (LoadResult.dict [("a", some 2)]) ∧
    dictGet (_concatenate_dicts
        (MemoryStore.loadMap (V := Nat) ⟨[(5, [("a", 1)])]⟩ 5 Option.none)
        (DiskStore.loadMap (V := Nat) ⟨[(5, [("a", 2)])]⟩ 5 Option.none)) "a" =
      some (some 2) := by
  have h := (claim_C8_merge_disk_wins (V := Nat)
    ⟨⟨[(5, [("a", 1)])]⟩, some ⟨[(5, [("a", 2)])]⟩, [("a", "disk")]⟩ 5).1
    ⟨[(5, [("a", 2)])]⟩ rfl
  refine ⟨?_, ?_⟩
  · rw [h.1.1]
    rfl
  · have h2 := h.1.2 (by simp [DiskStore.loadMap, dictGet]) "a"
    rw [h2]
    rfl

/-! ## Claim C6: the store/load round trip -/

/-- C6: for every entity id and field map whose fields are registered and
routed to a present tier, `store(id, **f)` followed by `load(id)` returns a map
containing every key of `f` with the stored value.  A memory-routed key must
not be shadowed by a stale entry in the entity's disk container (the spec's
one-location-per-field invariant), and the disk container's keys are
duplicate-free, as containers written by the store are. -/
theorem claim_C6_round_trip {V : Type} (s : Store V) (cluster : Nat)
    (data : List (String × V))
    (hreg : ∀ k ∈ data.map Prod.fst,
      dictGet s.dispatch k = some "memory" ∨
      (dictGet s.dispatch k = some "disk" ∧ s.disk.isSome = true))
    (hshadow : ∀ k ∈ data.map Prod.fst, dictGet s.dispatch k = some "memory" →
      ∀ d : DiskStore V, s.disk = some d →
        dictGet ((dictGet d.files cluster).getD []) k = Option.none)
    (hnodup : ∀ d : DiskStore V, s.disk = some d →
      (((dictGet d.files cluster).getD []).map Prod.fst).Nodup) :
    Store.store s cluster Option.none data = Except.ok (s.storeData cluster data) ∧
    ∀ k v, dictGet data k = some v →
      ∃ out, (s.storeData cluster data).load cluster Keys.none =
          Except.ok (LoadResult.dict out) ∧
        dictGet out k = some (some v) := by
  refine ⟨rfl, ?_⟩
  intro k v hkv
  have hkmem : k ∈ data.map Prod.fst := by
    rw [← dictGet_isSome_iff, hkv]
    rfl
  have hsome : (dictGet data k).isSome = true := by rw [hkv]; rfl
  rcases hd : s.disk with _ | d
  · -- no disk store: the result is the volatile record alone
    have hd' : (s.storeData cluster data).disk = Option.none :=
      storeData_disk_none s cluster data hd
    refine ⟨(s.storeData cluster data).memory.loadMap cluster Option.none,
      by simp [Store.load, hd', Store._filter, _concatenate_dicts], ?_⟩
    have hroute : dictGet s.dispatch k = some "memory" := by
      rcases hreg k hkmem with hr | hr
      · exact hr
      · rw [hd] at hr
        simp at hr
    rw [MemoryStore.loadMap, dictGet_map_some, storeData_memory_record_get,
      if_pos ⟨hroute, hsome⟩, hkv]
    rfl
  · -- disk store present
    obtain ⟨d', hd', hdget⟩ := storeData_disk_record_get s cluster data k d hd
    have hdisknodup : (((dictGet d'.files cluster).getD []).map Prod.fst).Nodup := by
      have : d' = d.store cluster
          (((data.map Prod.fst).filter
              (fun k => decide (dictGet s.dispatch k = some "disk"))).filterMap
            (fun k => (dictGet data k).map (fun v => (k, v)))) := by
        have := storeData_disk_some s cluster data d hd
        rw [hd'] at this
        exact Option.some.inj this
      rw [this, diskStore_record]
      simp only [Option.getD_some]
      exact nodup_keys_dictUpdate _ _ (hnodup d hd)
    have hdiskmap : d'.loadMap cluster Option.none =
        ((dictGet d'.files cluster).getD []).map (fun kv => (kv.1, some kv.2)) := by
      rcases hf : dictGet d'.files cluster with _ | f
      · simp [DiskStore.loadMap, hf]
      · simp [DiskStore.loadMap, hf]
    refine ⟨_concatenate_dicts
        ((s.storeData cluster data).memory.loadMap cluster Option.none)
        (d'.loadMap cluster Option.none),
      by simp [Store.load, hd', Store._filter], ?_⟩
    have hndd : ((((dictGet d'.files cluster).getD []).map
        (fun kv => (kv.1, some kv.2))).map Prod.fst).Nodup := by
      have hkeys : (((dictGet d'.files cluster).getD []).map
          (fun kv => (kv.1, some kv.2))).map Prod.fst =
          ((dictGet d'.files cluster).getD []).map Prod.fst := by
        simp [Function.comp_def]
      rw [hkeys]
      exact hdisknodup
    rw [hdiskmap, dictGet_concat _ _ _ hndd,
      dictGet_map_some, hdget, MemoryStore.loadMap, dictGet_map_some,
      storeData_memory_record_get]
    rcases hreg k hkmem with hroute | hroute
    · -- memory-routed: disk side contributes nothing at k
      have hnodisk : ¬ (dictGet s.dispatch k = some "disk" ∧
          (dictGet data k).isSome = true) := by
        rintro ⟨hc, _⟩
        rw [hroute] at hc
        simp at hc
      rw [if_neg hnodisk, hshadow k hkmem hroute d hd,
        if_pos ⟨hroute, hsome⟩, hkv]
      rfl
    · -- disk-routed: the disk value wins
      rw [if_pos ⟨hroute.1, hsome⟩, hkv]
      rfl

/-- Witness for C6: round trip through both tiers. -/
theorem claim_C6_round_trip_witness :
    ∃ out, (Store.storeData (V := Nat)
        ⟨⟨[]⟩, some ⟨[]⟩, [("m", "memory"), ("d", "disk")]⟩ 3
        [("m", 10), ("d", 20)]).load 3 Keys.none =
      Except.ok (LoadResult.dict out) ∧
      dictGet out "m" = some (some 10) ∧ dictGet out "d" = some (some 20) := by
  have h := claim_C6_round_trip (V := Nat)
    ⟨⟨[]⟩, some ⟨[]⟩, [("m", "memory"), ("d", "disk")]⟩ 3 [("m", 10), ("d", 20)]
    (by
      intro k hk
      simp at hk
      rcases hk with hk | hk <;> simp [hk, dictGet])
    (by
      intro k hk hmemr d hd
      cases hd
      rfl)
    (by
      intro d hd
      cases hd
      simp [dictGet])
  obtain ⟨out1, hload1, hget1⟩ := h.2 "m" 10 (by simp [dictGet])
  obtain ⟨out2, hload2, hget2⟩ := h.2 "d" 20 (by simp [dictGet])
  rw [hload1] at hload2
  have hout : out1 = out2 := LoadResult.dict.inj (Except.ok.inj hload2)
  rw [← hout] at hget2
  exact ⟨out1, hload1, hget1, hget2⟩

/-! ## Helper lemmas for `ClusterStore.load` -/

theorem npConcat_ok {A : Type} (ls : List (List A)) (out : List A)
    (h : npConcat ls = Except.ok out) : out = ls.flatten := by
  unfold npConcat at h
  by_cases he : ls.isEmpty
  · rw [if_pos he] at h
    exact Except.noConfusion h
  · rw [if_neg he] at h
    exact (Except.ok.inj h).symm

theorem membersLoop_ok_eq (spc : List (Nat × List Nat)) (clusters : List Nat)
    (membs : List (List Nat)) (h : membersLoop spc clusters = Except.ok membs) :
    membs = clusters.filterMap (fun c => dictGet spc c) := by
  induction clusters generalizing membs with
  | nil => exact (Except.ok.inj h).symm
  | cons c rest ih =>
    rcases hg : dictGet spc c with _ | l
    · rw [membersLoop, hg] at h
      exact Except.noConfusion h
    · rw [membersLoop, hg] at h
      rcases hr : membersLoop spc rest with e | tl
      · rw [hr] at h
        exact Except.noConfusion h
      · rw [hr] at h
        have htl := Except.ok.inj h
        rw [List.filterMap_cons, hg, ← htl, ih tl hr]

/-! ## Claim C2: `ClusterStore.load` concatenation order and member check -/

/-- A cache whose two clusters share the member-observation index 7, with
distinct per-member values: the concatenation order becomes observable through
`load`. -/
def csOrder : ClusterStore (List Nat) :=
  ⟨[(1, [7]), (2, [7])],
   ⟨⟨[(1, [("f", [10])]), (2, [("f", [20])])]⟩, Option.none, [("f", "memory")]⟩,
   ["f"], []⟩

/-- C2 counterexample: the claim reads the concatenation as running "in
ascending id order" (`ClusterStore.loadAscendingSpec`, stated from the spec's
words); the code concatenates across the ids in the order the caller gives
them, and the two disagree at `ids = [2, 1]`. -/
theorem claim_C2_counterexample :
    ClusterStore.load csOrder "f" [2, 1] [7] = Except.ok [20] ∧
    ClusterStore.loadAscendingSpec csOrder "f" [2, 1] [7] = Except.ok [10] ∧
    ClusterStore.load csOrder "f" [2, 1] [7] ≠
      ClusterStore.loadAscendingSpec csOrder "f" [2, 1] [7] := by
  refine ⟨rfl, rfl, fun h => ?_⟩
  have h2 : Except.ok (ε := Err) [20] = Except.ok [10] := h
  exact absurd (Except.ok.inj h2) (by decide)

/-- C2 (amended): `load` concatenates the per-entity arrays and the per-entity
membership indices across `ids` in the order the caller lists them (ascending
only when `ids` is passed sorted), and any requested member index absent from
that concatenated membership sequence makes the call fail: no value is
returned.  The second conjunct exhibits the given-order concatenation at the
counterexample state. -/
theorem claim_C2_amended {A : Type} (cs : ClusterStore (List A)) (name : String)
    (clusters spikes : List Nat) (s : Nat) (hs : s ∈ spikes)
    (habs : s ∉ (clusters.filterMap
      (fun c => dictGet cs.spikes_per_cluster c)).flatten) :
    (∀ v, cs.load name clusters spikes ≠ Except.ok v) ∧
    ClusterStore.load csOrder "f" [2, 1] [7] = Except.ok [20] := by
  refine ⟨?_, rfl⟩
  intro v h
  unfold ClusterStore.load at h
  split at h
  · exact Except.noConfusion h
  next scs heq =>
    split at h
    · exact Except.noConfusion h
    next hall =>
      split at h
      · exact Except.noConfusion h
      next vals heq2 =>
        split at h
        · exact Except.noConfusion h
        next arrays heq3 =>
          split at h
          · exact Except.noConfusion h
          next membs heq4 =>
            split at h
            · exact Except.noConfusion h
            next spike_clusters heq5 =>
              split at h
              · exact Except.noConfusion h
              next hallmem =>
                rw [not_not] at hallmem
                rw [List.all_eq_true] at hallmem
                have hmem := of_decide_eq_true (hallmem s hs)
                rw [membersLoop_ok_eq _ _ _ heq4] at heq5
                rw [npConcat_ok _ _ heq5] at hmem
                exact habs hmem

/-- Witness for the amended C2: a member index outside the requested clusters'
concatenated membership makes `load` fail. -/
theorem claim_C2_amended_witness :
    ClusterStore.load csOrder "f" [1, 2] [9] ≠ Except.ok [99] := by
  exact (claim_C2_amended csOrder "f" [1, 2] [9] 9 (by decide) (by decide)).1 [99]

/-! ## Claim C3: `generate` followed by `load` -/

/-- A generic provider for C3: for every cluster it computes the per-spike
values `f` over the cluster's spikes and stores them under `fname` (routed to
memory), per the provider contract (`store_from_model` writing through
`Store.store`). -/
def valueItem {A : Type} (fname : String) (f : Nat → A) : StoreItem (List A) :=
  ⟨"item", [(fname, "memory")], fun _ sp => [(fname, sp.map f)]⟩

/-- A `ClusterStore` as built by `__init__` with `path=None`. -/
def emptyCache {A : Type} : ClusterStore (List A) :=
  ⟨[], ⟨⟨[]⟩, Option.none, []⟩, [], []⟩

/-- The cache obtained by registering the generic provider on `emptyCache`. -/
def freshCache {A : Type} (fname : String) (f : Nat → A) : ClusterStore (List A) :=
  ⟨[], ⟨⟨[]⟩, Option.none, [(fname, "memory")]⟩, [fname], [valueItem fname f]⟩

theorem register_valueItem {A : Type} (fname : String) (f : Nat → A) :
    ClusterStore.register_item emptyCache (valueItem fname f) =
      Except.ok (freshCache fname f) := rfl

theorem memoryStore_record_other {V : Type} (m : MemoryStore V) (c c' : Nat)
    (data : List (String × V)) (h : ¬ c = c') :
    dictGet (m.store c data).ds c' = dictGet m.ds c' := by
  simp [MemoryStore.store, dictGet_dictInsert, h]

theorem storeData_single_mem {A : Type} (fname : String) (st : Store (List A))
    (c : Nat) (v : List A)
    (hdisp : st.dispatch = [(fname, "memory")]) (hdisk : st.disk = Option.none) :
    st.storeData c [(fname, v)] =
      { st with memory := st.memory.store c [(fname, v)] } := by
  simp [Store.storeData, Store._filter, hdisp, hdisk, dictGet, List.filter,
    List.filterMap]

/-- The store-writing fold performed by `generate` for the single generic
provider. -/
def generateFold {A : Type} (fname : String) (f : Nat → A)
    (m : List (Nat × List Nat)) (st : Store (List A)) (L : List Nat) :
    Store (List A) :=
  L.foldl (fun st2 c => st2.storeData c [(fname, ((dictGet m c).getD []).map f)]) st

theorem generate_freshCache {A : Type} (fname : String) (f : Nat → A)
    (m : List (Nat × List Nat)) :
    (freshCache fname f).generate m =
      ⟨m, generateFold fname f m (freshCache fname f).store
            (pySorted (m.map Prod.fst)), [fname], [valueItem fname f]⟩ := rfl

/-- After the `generate` fold over the cluster list `L`, each processed
cluster's memory record holds exactly the provider's stored field. -/
theorem generateFold_spec {A : Type} (fname : String) (f : Nat → A)
    (m : List (Nat × List Nat)) (L : List Nat) (st : Store (List A))
    (hdisp : st.dispatch = [(fname, "memory")]) (hdisk : st.disk = Option.none)
    (hst : ∀ c, dictGet st.memory.ds c = Option.none ∨
      dictGet st.memory.ds c = some [(fname, ((dictGet m c).getD []).map f)]) :
    (generateFold fname f m st L).dispatch = [(fname, "memory")] ∧
    (generateFold fname f m st L).disk = Option.none ∧
    ∀ c, dictGet (generateFold fname f m st L).memory.ds c =
      if c ∈ L then some [(fname, ((dictGet m c).getD []).map f)]
      else dictGet st.memory.ds c := by
  induction L generalizing st with
  | nil => exact ⟨hdisp, hdisk, fun c => by simp [generateFold]⟩
  | cons c0 rest ih =>
    have hstep := storeData_single_mem fname st c0
      (((dictGet m c0).getD []).map f) hdisp hdisk
    have hfold : generateFold fname f m st (c0 :: rest) =
        generateFold fname f m
          (st.storeData c0 [(fname, ((dictGet m c0).getD []).map f)]) rest := rfl
    have hd1 : (st.storeData c0
        [(fname, ((dictGet m c0).getD []).map f)]).dispatch = [(fname, "memory")] := by
      rw [hstep]
      exact hdisp
    have hk1 : (st.storeData c0
        [(fname, ((dictGet m c0).getD []).map f)]).disk = Option.none := by
      rw [hstep]
      exact hdisk
    have hrec : ∀ c, dictGet (st.storeData c0
        [(fname, ((dictGet m c0).getD []).map f)]).memory.ds c =
        if c = c0 then some [(fname, ((dictGet m c).getD []).map f)]
        else dictGet st.memory.ds c := by
      intro c
      rw [hstep]
      by_cases hc : c = c0
      · subst hc
        rw [if_pos rfl]
        show dictGet (st.memory.store c [(fname, _)]).ds c = _
        rw [memoryStore_record]
        rcases hst c with hnone | hsome
        · rw [hnone]
          simp [dictUpdate, dictInsert]
        · rw [hsome]
          simp [dictUpdate, dictInsert]
      · rw [if_neg hc]
        exact memoryStore_record_other st.memory c0 c _ (fun he => hc he.symm)
    have hst1inv : ∀ c, dictGet (st.storeData c0
        [(fname, ((dictGet m c0).getD []).map f)]).memory.ds c = Option.none ∨
        dictGet (st.storeData c0
          [(fname, ((dictGet m c0).getD []).map f)]).memory.ds c =
          some [(fname, ((dictGet m c).getD []).map f)] := by
      intro c
      rw [hrec c]
      by_cases hc : c = c0
      · rw [if_pos hc]
        exact Or.inr rfl
      · rw [if_neg hc]
        exact hst c
    obtain ⟨ha, hb, hcget⟩ := ih _ hd1 hk1 hst1inv
    refine ⟨by rw [hfold]; exact ha, by rw [hfold]; exact hb, ?_⟩
    intro c
    rw [hfold, hcget c]
    by_cases hcr : c ∈ rest
    · simp [List.mem_cons, hcr]
    · rw [if_neg hcr, hrec c]
      by_cases hc0 : c = c0
      · simp [List.mem_cons, hc0]
      · simp [List.mem_cons, hcr, hc0]

theorem loadArraysLoop_ok {A : Type} (st : Store (List A)) (name : String)
    (ids : List Nat) (g : Nat → List A)
    (h : ∀ c ∈ ids, st.load c (Keys.scalar name) =
      Except.ok (LoadResult.value (some (g c)))) :
    loadArraysLoop st name ids = Except.ok (ids.map g) := by
  induction ids with
  | nil => rfl
  | cons c rest ih =>
    rw [loadArraysLoop, h c (List.mem_cons_self _ _),
      ih (fun c' hc' => h c' (List.mem_cons_of_mem _ hc'))]
    rfl

theorem membersLoop_ok_of (spc : List (Nat × List Nat)) (ids : List Nat)
    (h : ∀ c ∈ ids, (dictGet spc c).isSome = true) :
    membersLoop spc ids =
      Except.ok (ids.map (fun c => (dictGet spc c).getD [])) := by
  induction ids with
  | nil => rfl
  | cons c rest ih =>
    obtain ⟨l, hl⟩ := Option.isSome_iff_exists.1 (h c (List.mem_cons_self _ _))
    rw [membersLoop, hl, ih (fun c' hc' => h c' (List.mem_cons_of_mem _ hc'))]
    simp [Except.map, hl]

theorem indexSelect_map_indexOf {A : Type} (f : Nat → A) (sc spikes : List Nat)
    (h : ∀ s ∈ spikes, s ∈ sc) :
    indexSelect (sc.map f) (_index_of spikes sc) = Except.ok (spikes.map f) := by
  induction spikes with
  | nil => rfl
  | cons s rest ih =>
    have hs := h s (List.mem_cons_self _ _)
    have hlt : sc.indexOf s < sc.length := List.indexOf_lt_length.2 hs
    have hget : (sc.map f)[sc.indexOf s]? = some (f s) := by
      rw [List.getElem?_map, List.getElem?_eq_getElem hlt, List.getElem_indexOf hlt]
      rfl
    rw [show _index_of (s :: rest) sc = sc.indexOf s :: _index_of rest sc from rfl,
      indexSelect, hget, ih (fun s' hs' => h s' (List.mem_cons_of_mem _ hs'))]
    rfl

/-- C3: after `generate(members_by_entity)`, `load(field, ids, members)`
returns the stored per-member field values positioned to match the requested
member indices, in the order `members` lists them, independent of the internal
concatenation order: every requested member `s` yields `f s`, the value the
registered provider stored for it.  Stated for the generic single-provider
cache `freshCache fname f`, whose provider stores `spikes.map f` per cluster. -/
theorem claim_C3_generate_then_load {A : Type} (fname : String) (f : Nat → A)
    (m : List (Nat × List Nat)) (ids spikes : List Nat)
    (hne : ids ≠ [])
    (hids : ∀ c ∈ ids, c ∈ m.map Prod.fst)
    (hspikes : ∀ s ∈ spikes,
      s ∈ (ids.map (fun c => (dictGet m c).getD [])).flatten) :
    ((freshCache fname f).generate m).load fname ids spikes =
      Except.ok (spikes.map f) := by
  rw [generate_freshCache]
  set G := generateFold fname f m (freshCache fname f).store
    (pySorted (m.map Prod.fst)) with hG
  obtain ⟨hdisp, hdisk, hget⟩ := generateFold_spec fname f m
    (pySorted (m.map Prod.fst)) (freshCache fname f).store rfl rfl
    (fun c => Or.inl rfl)
  rw [← hG] at hdisp hdisk hget
  have hclusters : Store.clusters G = Except.ok G.memory.clusters := by
    simp [Store.clusters, hdisk]
  have hall : ids.all (fun c => decide (c ∈ G.memory.clusters)) = true := by
    rw [List.all_eq_true]
    intro c hc
    apply decide_eq_true
    rw [MemoryStore.clusters, mem_pySorted, ← dictGet_isSome_iff, hget c,
      if_pos ((mem_pySorted (m.map Prod.fst) c).2 (hids c hc))]
    rfl
  have hload : ∀ c ∈ ids, G.load c (Keys.scalar fname) =
      Except.ok (LoadResult.value (some (((dictGet m c).getD []).map f))) := by
    intro c hc
    have hdg : dictGet G.dispatch fname = some "memory" := by
      rw [hdisp]
      simp [dictGet]
    simp [Store.load, hdg, MemoryStore.load, hget c,
      (mem_pySorted (m.map Prod.fst) c).2 (hids c hc), dictGet]
  have hlal : loadArraysLoop G fname ids =
      Except.ok (ids.map (fun c => ((dictGet m c).getD []).map f)) :=
    loadArraysLoop_ok G fname ids _ hload
  have hml : membersLoop m ids =
      Except.ok (ids.map (fun c => (dictGet m c).getD [])) := by
    apply membersLoop_ok_of
    intro c hc
    rw [dictGet_isSome_iff]
    exact hids c hc
  have hne1 : (ids.map (fun c => ((dictGet m c).getD []).map f)).isEmpty = false := by
    cases ids with
    | nil => exact absurd rfl hne
    | cons a l => rfl
  have hne2 : (ids.map (fun c => (dictGet m c).getD [])).isEmpty = false := by
    cases ids with
    | nil => exact absurd rfl hne
    | cons a l => rfl
  have hnc1 : npConcat (ids.map (fun c => ((dictGet m c).getD []).map f)) =
      Except.ok ((ids.map (fun c => ((dictGet m c).getD []).map f)).flatten) := by
    rw [npConcat, hne1]
    rfl
  have hnc2 : npConcat (ids.map (fun c => (dictGet m c).getD [])) =
      Except.ok ((ids.map (fun c => (dictGet m c).getD [])).flatten) := by
    rw [npConcat, hne2]
    rfl
  have hallspikes : spikes.all
      (fun s => decide (s ∈ (ids.map (fun c => (dictGet m c).getD [])).flatten)) =
      true := by
    rw [List.all_eq_true]
    intro s hs
    exact decide_eq_true (hspikes s hs)
  have harrays : (ids.map (fun c => ((dictGet m c).getD []).map f)).flatten =
      ((ids.map (fun c => (dictGet m c).getD [])).flatten).map f := by
    rw [List.map_flatten, List.map_map]
    rfl
  simp only [ClusterStore.load, hclusters, hlal, hml, hnc1, hnc2,
    if_neg (not_not_intro hall), if_neg (not_not_intro hallspikes)]
  rw [harrays]
  exact indexSelect_map_indexOf f _ spikes hspikes

/-- Witness for C3: `generate({1:[4,2], 2:[9]})` then
`load("f", [1,2], [4,9])` yields the members' values in request order. -/
theorem claim_C3_generate_then_load_witness :
    ((freshCache "f" (fun s => s * 100)).generate [(1, [4, 2]), (2, [9])]).load
        "f" [1, 2] [4, 9] = Except.ok [400, 900] :=
  claim_C3_generate_then_load "f" (fun s => s * 100)
    [(1, [4, 2]), (2, [9])] [1, 2] [4, 9] (by decide) (by decide) (by decide)

end PhyStore
